import Mathlib

/-!
Shallow embedding of the eBay price-analyzer script (src/ebay_scraper.py) and
proofs about its specification.

Modelling conventions:
* Python strings are `List Char`; Python floats are modelled as exact
  rationals `ℚ` (every numeral the script manipulates is decimal text, and
  the derived metric is a single division);
* Python dicts with a fixed key set are structures, keys that may be absent
  are `Option` fields;
* fallible code returns `Option`/`Except`; in-place mutation of a dict is
  explicit state passing (the function returns the post-state of its
  argument record);
* the external fetcher is an oracle (`World`) mapping page numbers and
  detail URLs to fetch results, `none` modelling a transport failure;
* BeautifulSoup element lookup is modelled at its interface: a search page
  is the list of result rows the lookups would produce, a detail page is the
  decoded `msku.JsonModel` payload (or `none` when the marker is absent or
  the JSON fails to decode).

The two regular expressions of the script are embedded as deterministic
scanners.  For both patterns greedy matching without backtracking agrees
with Python's backtracking semantics, because every token following a
greedy repetition starts with a character the repetition cannot consume
(argued in the doc comment of each scanner).  Recursions that are not
structural carry a fuel argument so that every definition reduces inside
the kernel; a fuel of the length of the input is always enough and the
lemmas about fuel irrelevance make that precise.
-/

set_option linter.unusedVariables false
set_option maxRecDepth 4000

/-- Python `str.lower()` on one character (the script only ever lowercases
ASCII letters, for which `Char.toLower` agrees with Python). -/
def pyLower (c : Char) : Char := c.toLower

/-- Python regex `\d` (the decimal digits, restricted to ASCII). -/
def pyDigit (c : Char) : Bool := c.isDigit

/-- Python regex `\s` (ASCII whitespace: space, tab, newline, CR, VT, FF). -/
def pySpace (c : Char) : Bool :=
  c == ' ' || c == '\t' || c == '\n' || c == '\r' || c == '\x0b' || c == '\x0c'

/-- One character of
`title.replace("/", " ").replace("-", " ").replace("_", " ").lower()`
(line 36 of the script): the three separators become spaces, everything
else is lowercased. -/
def normChar (c : Char) : Char :=
  if c == '/' || c == '-' || c == '_' then ' ' else pyLower c

/-- The normalization step of `extract_best_capacity` (line 36). -/
def pyNormalize (title : List Char) : List Char := title.map normChar

/-- The unit group of the capacity regex: `(tb|gb)`. -/
inductive CapUnit : Type
  | tb : CapUnit
  | gb : CapUnit
deriving DecidableEq, Repr

/-- Splitting off the optional dot of `\.?`. -/
def dotSplit (r : List Char) : List Char × List Char :=
  match r with
  | '.' :: rest => (['.'], rest)
  | _ => ([], r)

theorem dotSplit_snd_length (r : List Char) : (dotSplit r).2.length ≤ r.length := by
  unfold dotSplit
  split
  · simp
  · simp

theorem length_dropWhile_le {α : Type} (p : α → Bool) (l : List α) :
    (l.dropWhile p).length ≤ l.length :=
  (@List.dropWhile_sublist α l p).length_le

/-- Matching the regex `(\d+\.?\d*)\s*(tb|gb)` (line 39 of the script) at the
head of `cs`: greedy digits (at least one), an optional dot, greedy digits,
greedy whitespace, then the literal `tb` or `gb`.  Returns group 1, the
unit, and the remainder of the text after the match.  Greedy matching needs
no backtracking here: `t`/`g` is neither a digit, nor a dot, nor whitespace,
so shrinking any of the greedy pieces can never expose a character that
starts `tb` or `gb`. -/
def capGroup1 (cs : List Char) : List Char :=
  cs.takeWhile pyDigit ++ (dotSplit (cs.dropWhile pyDigit)).1 ++
    (dotSplit (cs.dropWhile pyDigit)).2.takeWhile pyDigit

def capMatchAt (cs : List Char) : Option (List Char × CapUnit × List Char) :=
  if cs.takeWhile pyDigit = [] then none
  else
    match ((dotSplit (cs.dropWhile pyDigit)).2.dropWhile pyDigit).dropWhile pySpace with
    | 't' :: 'b' :: r5 => some (capGroup1 cs, CapUnit.tb, r5)
    | 'g' :: 'b' :: r5 => some (capGroup1 cs, CapUnit.gb, r5)
    | _ => none

theorem capMatchAt_rest_length {cs g r : List Char} {u : CapUnit}
    (h : capMatchAt cs = some (g, u, r)) : r.length < cs.length := by
  have h1 : ((((dotSplit (cs.dropWhile pyDigit)).2.dropWhile pyDigit).dropWhile
      pySpace).length : Nat) ≤ ((dotSplit (cs.dropWhile pyDigit)).2.dropWhile pyDigit).length :=
    length_dropWhile_le _ _
  have h2 : (((dotSplit (cs.dropWhile pyDigit)).2.dropWhile pyDigit).length : Nat) ≤
      (dotSplit (cs.dropWhile pyDigit)).2.length := length_dropWhile_le _ _
  have h3 : ((dotSplit (cs.dropWhile pyDigit)).2.length : Nat) ≤ (cs.dropWhile pyDigit).length :=
    dotSplit_snd_length _
  have h4 : ((cs.dropWhile pyDigit).length : Nat) ≤ cs.length := length_dropWhile_le _ _
  unfold capMatchAt at h
  split at h
  · exact absurd h (by simp)
  · split at h
    · rename_i heq
      cases h
      rw [heq] at h1
      simp only [List.length_cons] at h1
      omega
    · rename_i heq
      cases h
      rw [heq] at h1
      simp only [List.length_cons] at h1
      omega
    · exact absurd h (by simp)

/-- Fuel-indexed scanner for
`re.findall(r'(\d+\.?\d*)\s*(tb|gb)', normalized)` (line 39): scan left to
right, emit each non-overlapping match and resume after it, otherwise
advance one character.  The fuel only makes the recursion structural (each
step strictly shortens the text, so fuel = length of the text always
suffices, see `reFindAllCapAux_fuel`). -/
def reFindAllCapAux : Nat → List Char → List (List Char × CapUnit)
  | 0, _ => []
  | _ + 1, [] => []
  | fuel + 1, c :: rest =>
    match capMatchAt (c :: rest) with
    | some (g, u, r) => (g, u) :: reFindAllCapAux fuel r
    | none => reFindAllCapAux fuel rest

/-- `re.findall` of the capacity pattern over a whole text. -/
def reFindAllCap (cs : List Char) : List (List Char × CapUnit) :=
  reFindAllCapAux cs.length cs

/-- The fuel of `reFindAllCapAux` is irrelevant once it is at least the
length of the text: `reFindAllCap` is really the plain unbounded scan. -/
theorem reFindAllCapAux_fuel (f1 : Nat) : ∀ (f2 : Nat) (cs : List Char),
    cs.length ≤ f1 → cs.length ≤ f2 → reFindAllCapAux f1 cs = reFindAllCapAux f2 cs := by
  induction f1 using Nat.strong_induction_on with
  | _ f1 ih =>
    intro f2 cs hf1 hf2
    match f1, f2, cs with
    | f1, f2, [] => cases f1 <;> cases f2 <;> rfl
    | 0, f2, c :: rest => simp at hf1
    | f1 + 1, 0, c :: rest => simp at hf2
    | f1 + 1, f2 + 1, c :: rest =>
      simp only [reFindAllCapAux]
      simp only [List.length_cons] at hf1 hf2
      cases h : capMatchAt (c :: rest) with
      | none => exact ih f1 (by omega) f2 rest (by omega) (by omega)
      | some m =>
        obtain ⟨g, u, r⟩ := m
        have hlt := capMatchAt_rest_length h
        simp only [List.length_cons] at hlt
        dsimp only
        rw [ih f1 (by omega) f2 r (by omega) (by omega)]

/-- Numeric value of a decimal digit character. -/
def digitVal (c : Char) : Nat := c.toNat - 48

/-- Value of a string of decimal digits (the empty string contributes 0,
exactly as the empty fractional part of e.g. `float("2.")` does). -/
def digitsToNat (ds : List Char) : Nat :=
  ds.foldl (fun n c => 10 * n + digitVal c) 0

/-- Python `float(val)` for a group-1 match of `\d+\.?\d*` — digits, an
optional dot, digits — as an exact rational. -/
def pyFloatOfCap (g : List Char) : ℚ :=
  let ip := g.takeWhile pyDigit
  let rest := g.dropWhile pyDigit
  let fp := match rest with
    | '.' :: r => r
    | _ => ([] : List Char)
  (digitsToNat ip : ℚ) + (digitsToNat fp : ℚ) / (10 : ℚ) ^ fp.length

/-- `extract_best_capacity` (lines 30–51): normalize the title, find all
`<number><unit>` matches, convert GB values to TB by dividing by 1000, and
return the maximum TB value if any exists, else the maximum converted GB
value if any exists, else `None`. -/
def extract_best_capacity (title : List Char) : Option ℚ :=
  let normalized := pyNormalize title
  let found := reFindAllCap normalized
  if found = [] then none
  else
    let tb_values := found.filterMap
      (fun m => if m.2 = CapUnit.tb then some (pyFloatOfCap m.1) else none)
    let gb_values := found.filterMap
      (fun m => if m.2 = CapUnit.gb then some (pyFloatOfCap m.1 / 1000) else none)
    if tb_values ≠ [] then tb_values.max?
    else if gb_values ≠ [] then gb_values.max?
    else none

example : extract_best_capacity "2TB SSD – $150".toList = some 2 := by with_unfolding_all decide
example : extract_best_capacity "Samsung 870 EVO 500GB/1TB/2TB SATA".toList = some 2 := by with_unfolding_all decide
example : extract_best_capacity "SSD 4000GB 1tb".toList = some 1 := by with_unfolding_all decide
example : extract_best_capacity "512GB NVMe".toList = some (512 / 1000) := by with_unfolding_all decide
example : extract_best_capacity "no capacity here".toList = none := by with_unfolding_all decide
example : extract_best_capacity "1.5 tb drive".toList = some (3 / 2) := by with_unfolding_all decide

/-- Greedy `\d{k}`-style digit taking, capped at `k` characters (used for the
`\d{1,3}` of the price pattern, whose lower bound is enforced at the call
site by starting at a digit). -/
def takeDigitsUpTo : Nat → List Char → List Char × List Char
  | 0, cs => ([], cs)
  | _ + 1, [] => ([], [])
  | k + 1, c :: r =>
    if pyDigit c then
      match takeDigitsUpTo k r with
      | (d, rest) => (c :: d, rest)
    else ([], c :: r)

/-- The star `(?:,?\d{3})*` of the price pattern
`\d{1,3}(?:,?\d{3})*(?:\.\d{2})?` (line 193 of the script): greedily repeat
an optional comma followed by exactly three digits.  When the comma is
present but not followed by three digits, dropping the comma cannot help
(the comma itself is not a digit), so the star simply stops — exactly
Python's backtracking outcome.  Each repetition consumes at least three
characters, so fuel = length of the text makes the recursion structural
without cutting anything off. -/
def thousandsGroups : Nat → List Char → List Char × List Char
  | 0, cs => ([], cs)
  | fuel + 1, ',' :: a :: b :: c :: r =>
    if pyDigit a && pyDigit b && pyDigit c then
      match thousandsGroups fuel r with
      | (g, rest) => (',' :: a :: b :: c :: g, rest)
    else ([], ',' :: a :: b :: c :: r)
  | fuel + 1, a :: b :: c :: r =>
    if pyDigit a && pyDigit b && pyDigit c then
      match thousandsGroups fuel r with
      | (g, rest) => (a :: b :: c :: g, rest)
    else ([], a :: b :: c :: r)
  | _ + 1, cs => ([], cs)

/-- The optional decimal part `(?:\.\d{2})?` of the price pattern. -/
def decimalPart (cs : List Char) : List Char × List Char :=
  match cs with
  | '.' :: a :: b :: r =>
    if pyDigit a && pyDigit b then (['.', a, b], r) else ([], '.' :: a :: b :: r)
  | _ => ([], cs)

/-- The price-pattern match starting at `cs` (whose head is a digit): after
the first digit the remaining pieces of `\d{1,3}(?:,?\d{3})*(?:\.\d{2})?`
can all match the empty string, so the match always succeeds and greedy
matching needs no backtracking across pieces. -/
def priceMatchAt (cs : List Char) : List Char :=
  match takeDigitsUpTo 3 cs with
  | (d1, r1) =>
    match thousandsGroups r1.length r1 with
    | (d2, r2) =>
      match decimalPart r2 with
      | (d3, _) => d1 ++ d2 ++ d3

/-- `re.search(r'\d{1,3}(?:,?\d{3})*(?:\.\d{2})?', s)` (line 193): the
leftmost match, which starts at the first digit of the text; `none` when the
text has no digit.  Returns the matched substring. -/
def priceSearch : List Char → Option (List Char)
  | [] => none
  | c :: r => if pyDigit c then some (priceMatchAt (c :: r)) else priceSearch r

/-- `float(price_match.group(0).replace(',', ''))` (line 197): strip the
thousands separators and read the decimal numeral exactly. -/
def pyFloatOfPrice (g : List Char) : ℚ :=
  pyFloatOfCap (g.filter (fun c => c != ','))

example : priceSearch "$1,234.56".toList = some "1,234.56".toList := by with_unfolding_all decide
example : pyFloatOfPrice "1,250".toList = 1250 := by with_unfolding_all decide
example : pyFloatOfPrice "12.50".toList = 25 / 2 := by with_unfolding_all decide
example : priceSearch "no price here".toList = none := by with_unfolding_all decide
example : priceSearch "$1234.56".toList = some "123".toList := by with_unfolding_all decide
example : priceSearch "$0.00".toList = some "0.00".toList := by with_unfolding_all decide

/-- One raw listing dict as built by `parse_search_page` (lines 121 and
123): the multi-variation dict has no `price_str` key (`none`), and the
three analysis keys added later by `calculate_price_per_tb`'s in-place
update start out absent. -/
structure RawListing where
  title : List Char
  url : List Char
  price_str : Option (List Char)
  is_multi_variation : Bool
  price_usd : Option ℚ := none
  capacity_tb : Option ℚ := none
  price_per_tb : Option ℚ := none
deriving DecidableEq, Repr

/-- One `li.s-item` result row of a search page, modelled at the interface
of the four BeautifulSoup lookups in lines 104–114: the text of the title
`div` (if that element exists), the text of the fallback title `h3`, the
text of the price `span`, and the link element — `none` when no
`a.s-item__link` exists, `some none` when it exists but carries no `href`
attribute (in which case the subscript raises `KeyError`, caught by the
row-level `except` in line 124), and `some (some u)` for an `href` of `u`. -/
structure ItemRow where
  titleDiv : Option (List Char)
  titleH3 : Option (List Char)
  priceSpan : Option (List Char)
  linkElem : Option (Option (List Char))
deriving DecidableEq, Repr

/-- The literal fallback text used by `parse_search_page`. -/
def nA : List Char := ['N', '/', 'A']

/-- Python `str.strip()`: remove leading and trailing whitespace. -/
def pyStrip (cs : List Char) : List Char :=
  ((cs.dropWhile pySpace).reverse.dropWhile pySpace).reverse

/-- Python `needle in hay` on strings: substring containment. -/
def pyContains (needle : List Char) : List Char → Bool
  | [] => needle.isEmpty
  | c :: t => needle.isPrefixOf (c :: t) || pyContains needle t

/-- Lines 104–108: the title `div`, falling back to the `h3` variant, then
`.text.strip()`, else the literal `N/A`. -/
def itemTitle (it : ItemRow) : List Char :=
  match it.titleDiv with
  | some t => pyStrip t
  | none =>
    match it.titleH3 with
    | some t => pyStrip t
    | none => nA

/-- Lines 110–111: the price `span` text stripped, else the literal `N/A`. -/
def itemPriceStr (it : ItemRow) : List Char :=
  match it.priceSpan with
  | some p => pyStrip p
  | none => nA

/-- Lines 102–125, body of the per-row loop of `parse_search_page`:
`url = url_element['href'] if url_element else 'N/A'` (a `KeyError` when the
element lacks the attribute is swallowed by the `except`, skipping the row),
then rows whose url or title is `N/A` are skipped, and the remaining rows
are classified by `'to' in price_str.lower()`. -/
def parseItem (it : ItemRow) : Option RawListing :=
  match it.linkElem with
  | some none => none
  | lk =>
    let url := match lk with
      | some (some u) => u
      | _ => nA
    if url = nA ∨ itemTitle it = nA then none
    else if pyContains ['t', 'o'] ((itemPriceStr it).map pyLower) then
      some { title := itemTitle it, url := url, price_str := none,
             is_multi_variation := true }
    else
      some { title := itemTitle it, url := url, price_str := some (itemPriceStr it),
             is_multi_variation := false }

/-- A fetched search page at the interface of the two container lookups of
lines 97–101: `none` when no `ul.srp-results` container exists (the
function then returns `[]`), otherwise the list of `li.s-item` rows. -/
structure SearchHtml where
  rows : Option (List ItemRow)
deriving DecidableEq, Repr

/-- `parse_search_page` (lines 90–126). -/
def parse_search_page (html : SearchHtml) : List RawListing :=
  match html.rows with
  | none => []
  | some items => items.filterMap parseItem

/-- `calculate_price_per_tb` (lines 187–202).  The function both returns its
result and mutates its argument dict in place (lines 199–201 add the three
analysis keys to `listing` itself); the Lean value is the pair
(returned value, post-state of the argument).  `not capacity_tb or
capacity_tb <= 0` is the disjunction of Python falsiness (`0.0`) and the
explicit sign test.  `listing['price_str']` is read with a default because
`main` only calls this function on single-price listings, where the key is
always present. -/
def calculate_price_per_tb (listing : RawListing) : Option RawListing × RawListing :=
  match extract_best_capacity listing.title with
  | none => (none, listing)
  | some capacity_tb =>
    if capacity_tb = 0 ∨ capacity_tb ≤ 0 then (none, listing)
    else
      match priceSearch (listing.price_str.getD []) with
      | none => (none, listing)
      | some g =>
        let price := pyFloatOfPrice g
        let updated := { listing with
                         price_usd := some price
                         capacity_tb := some capacity_tb
                         price_per_tb := some (price / capacity_tb) }
        (some updated, updated)

example :
    ((calculate_price_per_tb
      { title := "2TB SSD – $150".toList, url := "u".toList,
        price_str := some "$150".toList, is_multi_variation := false }).1.map
      (fun r => (r.price_usd, r.capacity_tb, r.price_per_tb))) =
    some (some 150, some 2, some 75) := by
  with_unfolding_all decide

/-- One entry of a variant's `propVals` map (attribute-name → display
value); `valueName` is `none` when the `val['valueName']` subscript would
raise `KeyError`. -/
structure PropVal where
  valueName : Option (List Char)
deriving DecidableEq, Repr

/-- One variant menu entry (`details` in line 154): `propVals` is `none`
when the `details['propVals']` subscript would raise `KeyError`, and
`price` models `details.get('price', {}).get('value')` — `none` when either
key is absent.  Payload prices are modelled as rationals (the script feeds
the value straight to `float`). -/
structure VariantDetails where
  propVals : Option (List PropVal)
  price : Option ℚ
deriving DecidableEq, Repr

/-- The decoded `msku.JsonModel` object: `menu` is `none` when the decoded
object has no `menu` key (line 150); the menu entries are listed in
insertion order, as Python's `dict.items()` yields them (the keys
themselves are never used by the loop body). -/
structure VariationData where
  menu : Option (List VariantDetails)
deriving DecidableEq, Repr

/-- A fetched detail page at the interface of the script-scanning loop of
lines 137–148: `variationData` is the decoded payload, or `none` when no
script carries the `msku.JsonModel` marker, the regex finds no object, the
JSON fails to decode, or the decoded object is falsy (an empty dict) —
all of which make lines 150–151 return `[]`. -/
structure DetailHtml where
  variationData : Option VariationData
deriving DecidableEq, Repr

/-- One fully analyzed listing dict, as appended to
`all_analyzed_listings` (`url` is empty for resolved variants). -/
structure Analyzed where
  title : List Char
  price_usd : ℚ
  capacity_tb : ℚ
  price_per_tb : ℚ
  url : List Char
deriving DecidableEq, Repr

/-- The one uncaught exception the per-variant loop can raise. -/
inductive PyError : Type
  | nameError : PyError
deriving DecidableEq, Repr

/-- Python `" ".join(...)`. -/
def joinSpace : List (List Char) → List Char
  | [] => []
  | [s] => s
  | s :: rest => s ++ ' ' :: joinSpace rest

/-- The body of the per-variant loop of `parse_variations_from_product_page`
(lines 155–182).  A `KeyError` (missing `propVals`, or a missing
`valueName` raised lazily while joining) is caught by the
`except (KeyError, TypeError)` in line 181 and skips the variant
(`.ok none`), as do a missing or falsy price and a missing or zero
capacity (`continue`).  A variant that survives all of these reaches line
169, `value_str, unit = match.groups()`, which reads the name `match` —
bound nowhere in the script — and therefore raises `NameError`, which
`except (KeyError, TypeError)` does not catch; lines 170–180, including
the append of the analyzed variant, are unreachable. -/
def processVariant (base_title : List Char) (details : VariantDetails) :
    Except PyError (Option Analyzed) :=
  match details.propVals with
  | none => Except.ok none
  | some pvs =>
    if pvs.any (fun v => v.valueName = none) then Except.ok none
    else
      let variation_title := joinSpace (pvs.map (fun v => v.valueName.getD []))
      let full_title := base_title ++ (' ' :: '-' :: ' ' :: variation_title)
      match details.price with
      | none => Except.ok none
      | some price =>
        if price = 0 then Except.ok none
        else
          match extract_best_capacity full_title with
          | none => Except.ok none
          | some capacity_tb =>
            if capacity_tb = 0 then Except.ok none
            else Except.error PyError.nameError

/-- The loop of line 154 over the menu entries: skipped variants contribute
nothing, an uncaught exception aborts the whole function. -/
def processMenu (base_title : List Char) : List VariantDetails → Except PyError (List Analyzed)
  | [] => Except.ok []
  | d :: rest =>
    match processVariant base_title d with
    | Except.error e => Except.error e
    | Except.ok none => processMenu base_title rest
    | Except.ok (some a) =>
      match processMenu base_title rest with
      | Except.error e => Except.error e
      | Except.ok l => Except.ok (a :: l)

/-- `parse_variations_from_product_page` (lines 128–184). -/
def parse_variations_from_product_page (html : DetailHtml) (base_title : List Char) :
    Except PyError (List Analyzed) :=
  match html.variationData with
  | none => Except.ok []
  | some vd =>
    match vd.menu with
    | none => Except.ok []
    | some entries => processMenu base_title entries

/-- The user-supplied configuration of one run (search term omitted: it
only enters the search URL, which the page oracle absorbs). -/
structure Config where
  min_price_tb : ℚ
  max_price_tb : ℚ
  desired_results : Int
deriving DecidableEq, Repr

/-- The external fetcher as an oracle: the search page for a page number
(the URL of line 275 is determined by the fixed search term and the page
number) and the detail page for a listing URL; `none` is a transport
failure (`fetch_page` returning `None`). -/
structure World where
  searchPage : Nat → Option SearchHtml
  detailPage : List Char → Option DetailHtml

/-- The mutable local state of `main`'s while loop (lines 266–269). -/
structure SState where
  all_analyzed_listings : List Analyzed
  valid_listings : List Analyzed
  page_number : Nat
  consecutive_empty_pages : Nat
deriving DecidableEq, Repr

/-- Lines 266–269: empty accumulators, page 1, zero empty pages. -/
def initState : SState :=
  { all_analyzed_listings := [], valid_listings := [], page_number := 1,
    consecutive_empty_pages := 0 }

/-- Line 270. -/
def EMPTY_PAGE_LIMIT : Nat := 5

/-- The analyzed-listing view of the dict returned by
`calculate_price_per_tb` (the three analysis keys are always present on a
returned dict, so the defaults never fire). -/
def toAnalyzed (r : RawListing) : Analyzed :=
  { title := r.title, price_usd := r.price_usd.getD 0,
    capacity_tb := r.capacity_tb.getD 0, price_per_tb := r.price_per_tb.getD 0,
    url := r.url }

/-- Line 319: `[l for l in all_analyzed_listings if min_price_tb <=
l['price_per_tb'] <= max_price_tb]`. -/
def validFilter (cfg : Config) (l : List Analyzed) : List Analyzed :=
  l.filter (fun x =>
    decide (cfg.min_price_tb ≤ x.price_per_tb) && decide (x.price_per_tb ≤ cfg.max_price_tb))

/-- Lines 296–316, the per-listing body of the page loop: a multi-variation
listing triggers a detail fetch — whose failure silently skips just that
listing (`if product_html:` has no else branch) — and otherwise appends
whatever the variation parser returns; a single-price listing appends the
result of `calculate_price_per_tb` when there is one.  An uncaught
exception from the variation parser propagates. -/
def processListing (w : World) (acc : List Analyzed) (listing : RawListing) :
    Except PyError (List Analyzed) :=
  if listing.is_multi_variation then
    match w.detailPage listing.url with
    | none => Except.ok acc
    | some product_html =>
      match parse_variations_from_product_page product_html listing.title with
      | Except.error e => Except.error e
      | Except.ok variations => Except.ok (acc ++ variations)
  else
    match (calculate_price_per_tb listing).1 with
    | some analyzed => Except.ok (acc ++ [toAnalyzed analyzed])
    | none => Except.ok acc

/-- The `for listing in listings_on_page` loop (line 296), threading the
accumulated list; on an uncaught exception the entries appended by earlier
iterations of the same page remain (the Python list was mutated in place),
and the exception is reported alongside them. -/
def processAll (w : World) (acc : List Analyzed) :
    List RawListing → Option PyError × List Analyzed
  | [] => (none, acc)
  | l :: rest =>
    match processListing w acc l with
    | Except.error e => (some e, acc)
    | Except.ok acc2 => processAll w acc2 rest

/-- The four ways an iteration can end the run, plus the fuel bound of the
embedding.  `stoppedSuccess` is the desired-count stop (and the trivial
exit when the while condition of line 274 is already false),
`stoppedExhausted` the consecutive-empty-page stop, `stoppedFailure` the
search-page fetch failure, `crashed` an uncaught `NameError` escaping
`main`. -/
inductive Outcome : Type
  | stoppedSuccess : Outcome
  | stoppedExhausted : Outcome
  | stoppedFailure : Outcome
  | crashed : Outcome
  | outOfFuel : Outcome
deriving DecidableEq, Repr

inductive StepResult : Type
  | stop : Outcome → SState → StepResult
  | next : SState → StepResult
deriving DecidableEq, Repr

/-- One iteration of the while loop of `main` (lines 274–326): check the
loop condition, fetch the search page (failure stops the run), classify;
an empty page bumps `consecutive_empty_pages` and stops the run at the
limit; a non-empty page resets the counter to zero, processes every
listing, recomputes `valid_listings` from the accumulated list, stops when
the desired count is reached, and otherwise advances the page number. -/
def searchStep (w : World) (cfg : Config) (st : SState) : StepResult :=
  if (st.valid_listings.length : Int) < cfg.desired_results then
    match w.searchPage st.page_number with
    | none => StepResult.stop Outcome.stoppedFailure st
    | some search_html =>
      if parse_search_page search_html = [] then
        if st.consecutive_empty_pages + 1 ≥ EMPTY_PAGE_LIMIT then
          StepResult.stop Outcome.stoppedExhausted
            { st with consecutive_empty_pages := st.consecutive_empty_pages + 1 }
        else
          StepResult.next
            { st with
              consecutive_empty_pages := st.consecutive_empty_pages + 1
              page_number := st.page_number + 1 }
      else
        match processAll w st.all_analyzed_listings (parse_search_page search_html) with
        | (some _, acc) =>
          StepResult.stop Outcome.crashed
            { st with
              all_analyzed_listings := acc
              consecutive_empty_pages := 0 }
        | (none, acc) =>
          if (((validFilter cfg acc).length : Int)) ≥ cfg.desired_results then
            StepResult.stop Outcome.stoppedSuccess
              { st with
                all_analyzed_listings := acc
                valid_listings := validFilter cfg acc
                consecutive_empty_pages := 0 }
          else
            StepResult.next
              { st with
                all_analyzed_listings := acc
                valid_listings := validFilter cfg acc
                consecutive_empty_pages := 0
                page_number := st.page_number + 1 }
  else StepResult.stop Outcome.stoppedSuccess st

/-- The while loop of `main`, iterated up to `fuel` times. -/
def runLoop (w : World) (cfg : Config) : Nat → SState → Outcome × SState
  | 0, st => (Outcome.outOfFuel, st)
  | fuel + 1, st =>
    match searchStep w cfg st with
    | StepResult.stop o st2 => (o, st2)
    | StepResult.next st2 => runLoop w cfg fuel st2

/-- A whole run of `main`'s loop from the initial state. -/
def runMain (w : World) (cfg : Config) (fuel : Nat) : Outcome × SState :=
  runLoop w cfg fuel initState

/-- Line 336: `sorted(valid_listings, key=lambda x: x['price_per_tb'])` —
Python's `sorted` is a stable merge sort and does not mutate its input. -/
def sortedByUnitPrice (l : List Analyzed) : List Analyzed :=
  l.mergeSort (fun a b => decide (a.price_per_tb ≤ b.price_per_tb))

instance {ε α : Type} [DecidableEq ε] [DecidableEq α] : DecidableEq (Except ε α) := fun a b =>
  match a, b with
  | Except.ok x, Except.ok y =>
    if h : x = y then isTrue (by rw [h]) else isFalse (fun hh => by cases hh; exact h rfl)
  | Except.error x, Except.error y =>
    if h : x = y then isTrue (by rw [h]) else isFalse (fun hh => by cases hh; exact h rfl)
  | Except.ok _, Except.error _ => isFalse (fun hh => by cases hh)
  | Except.error _, Except.ok _ => isFalse (fun hh => by cases hh)

/-- The parsed values of the TB-tagged matches of a title, in match order
(the `tb_values` comprehension of line 44 before taking the maximum). -/
def tbRawValues (title : List Char) : List ℚ :=
  (reFindAllCap (pyNormalize title)).filterMap
    (fun m => if m.2 = CapUnit.tb then some (pyFloatOfCap m.1) else none)

/-- The parsed values of the GB-tagged matches of a title before the
division by 1000 of line 45, in match order. -/
def gbRawValues (title : List Char) : List ℚ :=
  (reFindAllCap (pyNormalize title)).filterMap
    (fun m => if m.2 = CapUnit.gb then some (pyFloatOfCap m.1) else none)

theorem gb_values_eq_map (title : List Char) :
    (reFindAllCap (pyNormalize title)).filterMap
      (fun m => if m.2 = CapUnit.gb then some (pyFloatOfCap m.1 / 1000) else none) =
    (gbRawValues title).map (fun y => y / 1000) := by
  unfold gbRawValues
  rw [List.map_filterMap]
  congr 1
  funext m
  by_cases h : m.2 = CapUnit.gb <;> simp [h]

theorem foldl_max_map_div (l : List ℚ) : ∀ (x : ℚ),
    (l.map (fun y => y / 1000)).foldl max (x / 1000) = (l.foldl max x) / 1000 := by
  induction l with
  | nil => intro x; rfl
  | cons a l ih =>
    intro x
    simp only [List.map_cons, List.foldl_cons]
    rw [max_div_div_right (by norm_num : (0:ℚ) ≤ 1000), ih]

theorem max?_map_div (l : List ℚ) :
    (l.map (fun y => y / 1000)).max? = l.max?.map (fun y => y / 1000) := by
  cases l with
  | nil => rfl
  | cons a l =>
    show some ((l.map (fun y => y / 1000)).foldl max (a / 1000)) = some ((l.foldl max a) / 1000)
    rw [foldl_max_map_div]

/-- C4: for every title string, `extract_best_capacity` returns the maximum
TB-tagged value whenever at least one TB-tagged number exists (regardless of
any GB-tagged number), otherwise the maximum GB-tagged value divided by 1000
whenever at least one GB-tagged number exists, and otherwise `none`.  (The
function is a plain Lean function of the title, hence pure and
deterministic.) -/
theorem C4_capacity_unit_priority (title : List Char) :
    (tbRawValues title ≠ [] → extract_best_capacity title = (tbRawValues title).max?) ∧
    (tbRawValues title = [] → gbRawValues title ≠ [] →
      extract_best_capacity title = ((gbRawValues title).max?).map (fun y => y / 1000)) ∧
    (tbRawValues title = [] → gbRawValues title = [] → extract_best_capacity title = none) := by
  unfold extract_best_capacity
  by_cases hf : reFindAllCap (pyNormalize title) = []
  · have htb : tbRawValues title = [] := by unfold tbRawValues; rw [hf]; rfl
    have hgb : gbRawValues title = [] := by unfold gbRawValues; rw [hf]; rfl
    refine ⟨fun h => absurd htb h, fun _ h => absurd hgb h, fun _ _ => ?_⟩
    simp [hf]
  · simp only [hf, if_false]
    rw [gb_values_eq_map]
    constructor
    · intro htb
      show (if tbRawValues title ≠ [] then (tbRawValues title).max?
            else if (gbRawValues title).map (fun y => y / 1000) ≠ [] then
              ((gbRawValues title).map (fun y => y / 1000)).max? else none) = (tbRawValues title).max?
      simp [htb]
    constructor
    · intro htb hgb
      show (if tbRawValues title ≠ [] then (tbRawValues title).max?
            else if (gbRawValues title).map (fun y => y / 1000) ≠ [] then
              ((gbRawValues title).map (fun y => y / 1000)).max? else none) =
           ((gbRawValues title).max?).map (fun y => y / 1000)
      rw [if_neg (by simp [htb]), if_pos (by simp [hgb]), max?_map_div]
    · intro htb hgb
      show (if tbRawValues title ≠ [] then (tbRawValues title).max?
            else if (gbRawValues title).map (fun y => y / 1000) ≠ [] then
              ((gbRawValues title).map (fun y => y / 1000)).max? else none) = none
      rw [if_neg (by simp [htb]), if_neg (by simp [hgb])]

/-- Witness for C4 at a title carrying both a TB- and a larger GB-tagged
number: the TB branch applies. -/
theorem C4_capacity_unit_priority_witness :
    tbRawValues "2TB 500GB SSD".toList ≠ [] ∧
    extract_best_capacity "2TB 500GB SSD".toList = (tbRawValues "2TB 500GB SSD".toList).max? :=
  ⟨by with_unfolding_all decide,
   (C4_capacity_unit_priority "2TB 500GB SSD".toList).1 (by with_unfolding_all decide)⟩

/-- C5: for every accumulated sequence and bounds with min < max, the ranked
output (the bounds filter of line 319 followed by the stable sort of line
336) contains exactly the input records whose unit price lies in the closed
interval — stated as a count identity: each record occurs as often as in
the input when its unit price is in bounds and not at all otherwise — is
non-decreasing in unit price, and keeps records of equal unit price in
their original accumulation order (the sublist of records at any fixed
unit price is unchanged by the sort). -/
theorem C5_ranker_filter_sort (l : List Analyzed) (cfg : Config)
    (hb : cfg.min_price_tb < cfg.max_price_tb) :
    (∀ a : Analyzed, (sortedByUnitPrice (validFilter cfg l)).count a =
        if cfg.min_price_tb ≤ a.price_per_tb ∧ a.price_per_tb ≤ cfg.max_price_tb
        then l.count a else 0) ∧
    List.Pairwise (fun a b => a.price_per_tb ≤ b.price_per_tb)
      (sortedByUnitPrice (validFilter cfg l)) ∧
    (∀ c : ℚ,
      (sortedByUnitPrice (validFilter cfg l)).filter (fun a => decide (a.price_per_tb = c)) =
        (validFilter cfg l).filter (fun a => decide (a.price_per_tb = c))) := by
  have htrans : ∀ a b c : Analyzed,
      (fun a b : Analyzed => decide (a.price_per_tb ≤ b.price_per_tb)) a b = true →
      (fun a b : Analyzed => decide (a.price_per_tb ≤ b.price_per_tb)) b c = true →
      (fun a b : Analyzed => decide (a.price_per_tb ≤ b.price_per_tb)) a c = true := by
    intro a b c h1 h2
    simp only [decide_eq_true_eq] at h1 h2 ⊢
    exact le_trans h1 h2
  have htot : ∀ a b : Analyzed,
      ((fun a b : Analyzed => decide (a.price_per_tb ≤ b.price_per_tb)) a b ||
       (fun a b : Analyzed => decide (a.price_per_tb ≤ b.price_per_tb)) b a) = true := by
    intro a b
    simp only [Bool.or_eq_true, decide_eq_true_eq]
    exact le_total _ _
  have hperm := List.mergeSort_perm (validFilter cfg l)
    (fun a b : Analyzed => decide (a.price_per_tb ≤ b.price_per_tb))
  unfold sortedByUnitPrice
  refine ⟨?_, ?_, ?_⟩
  · intro a
    rw [hperm.count_eq]
    by_cases hin : cfg.min_price_tb ≤ a.price_per_tb ∧ a.price_per_tb ≤ cfg.max_price_tb
    · rw [if_pos hin]
      exact List.count_filter (by simp [hin.1, hin.2])
    · rw [if_neg hin]
      rw [List.count_eq_zero]
      intro hmem
      unfold validFilter at hmem
      rw [List.mem_filter] at hmem
      simp only [Bool.and_eq_true, decide_eq_true_eq] at hmem
      exact hin ⟨hmem.2.1, hmem.2.2⟩
  · exact (List.sorted_mergeSort htrans htot (validFilter cfg l)).imp
      (fun h => of_decide_eq_true h)
  · intro c
    have hmemc : ∀ a ∈ (validFilter cfg l).filter (fun a => decide (a.price_per_tb = c)),
        a.price_per_tb = c := by
      intro a ha
      rw [List.mem_filter] at ha
      exact of_decide_eq_true ha.2
    have hpair : ((validFilter cfg l).filter (fun a => decide (a.price_per_tb = c))).Pairwise
        (fun a b : Analyzed =>
          (fun a b : Analyzed => decide (a.price_per_tb ≤ b.price_per_tb)) a b = true) := by
      apply List.pairwise_of_forall_mem_list
      intro a ha b hb2
      simp only [decide_eq_true_eq]
      rw [hmemc a ha, hmemc b hb2]
    have hsubS := List.sublist_mergeSort htrans htot hpair (List.filter_sublist _)
    have hfself : ((validFilter cfg l).filter (fun a => decide (a.price_per_tb = c))).filter
        (fun a => decide (a.price_per_tb = c)) =
        (validFilter cfg l).filter (fun a => decide (a.price_per_tb = c)) :=
      List.filter_eq_self.mpr (fun a ha => decide_eq_true (hmemc a ha))
    have hs2 := hsubS.filter (fun a => decide (a.price_per_tb = c))
    rw [hfself] at hs2
    have hpf := hperm.filter (fun a => decide (a.price_per_tb = c))
    exact (hs2.eq_of_length hpf.length_eq.symm).symm

/-- A small concrete accumulation used by witnesses: two records share the
unit price 75, one sits at 30, one far out of bounds at 300. -/
def witnessListings : List Analyzed :=
  [ { title := ['a'], price_usd := 150, capacity_tb := 2, price_per_tb := 75, url := [] },
    { title := ['b'], price_usd := 60, capacity_tb := 2, price_per_tb := 30, url := [] },
    { title := ['c'], price_usd := 300, capacity_tb := 4, price_per_tb := 75, url := [] },
    { title := ['d'], price_usd := 600, capacity_tb := 2, price_per_tb := 300, url := [] } ]

def witnessConfig : Config :=
  { min_price_tb := 20, max_price_tb := 100, desired_results := 1 }

/-- Witness for C5 at the concrete accumulation above. -/
theorem C5_ranker_filter_sort_witness :
    witnessConfig.min_price_tb < witnessConfig.max_price_tb ∧
    List.Pairwise (fun a b => a.price_per_tb ≤ b.price_per_tb)
      (sortedByUnitPrice (validFilter witnessConfig witnessListings)) :=
  ⟨by norm_num [witnessConfig],
   (C5_ranker_filter_sort witnessListings witnessConfig
     (by norm_num [witnessConfig])).2.1⟩

/-- The single-price search-result row of the spec's end-to-end scenario:
title `2TB SSD – $150`, display price `$150`, detail link `u1`. -/
def singlePriceRow : ItemRow :=
  { titleDiv := some "2TB SSD – $150".toList, titleH3 := none,
    priceSpan := some "$150".toList, linkElem := some (some "u1".toList) }

/-- A source whose first page yields exactly that row and whose later pages
are result-free; detail pages never resolve (none are ever requested). -/
def singlePriceWorld : World :=
  { searchPage := fun p => if p = 1 then some { rows := some [singlePriceRow] }
      else some { rows := none }
    detailPage := fun _ => none }

/-- C7: with bounds 20–100 and desired count 1, the pipeline run on the
single listing `2TB SSD – $150` (price text `$150`) produces exactly one
analyzed listing with capacity 2 TB, price 150, unit price 75, counts it as
valid (validCount = 1) and stops successfully. -/
theorem C7_single_listing_pipeline :
    (runMain singlePriceWorld witnessConfig 2).1 = Outcome.stoppedSuccess ∧
    ((runMain singlePriceWorld witnessConfig 2).2.all_analyzed_listings.map
      (fun a => (a.capacity_tb, a.price_usd, a.price_per_tb))) = [(2, 150, 75)] ∧
    ((runMain singlePriceWorld witnessConfig 2).2.all_analyzed_listings.map
      (fun a => a.title)) = ["2TB SSD – $150".toList] ∧
    (runMain singlePriceWorld witnessConfig 2).2.valid_listings.length = 1 := by
  with_unfolding_all decide

/-- A variation menu of three entries: two well-formed (price present,
capacity readable from the composed title), one with a missing price. -/
def threeVariantMenu : List VariantDetails :=
  [ { propVals := some [{ valueName := some "1TB".toList }], price := some 50 },
    { propVals := some [{ valueName := some "2TB".toList }], price := none },
    { propVals := some [{ valueName := some "4TB".toList }], price := some 200 } ]

def threeVariantDetail : DetailHtml :=
  { variationData := some { menu := some threeVariantMenu } }

/-- C1 (code bug): on a payload of three menu entries of which exactly one
lacks a price, the spec expects the two well-formed variants to yield two
analyzed records.  Instead the first well-formed variant reaches line 169
(`value_str, unit = match.groups()`, reading the unbound name `match`) and
raises `NameError`; the `except (KeyError, TypeError)` handler does not
catch it, so the variant-level failure escapes the function, no records are
produced, and the exception aborts the run. -/
theorem C1_variation_parser_crashes :
    threeVariantMenu.length = 3 ∧
    (threeVariantMenu.filter (fun d => d.price.isNone)).length = 1 ∧
    parse_variations_from_product_page threeVariantDetail "SSD".toList =
      Except.error PyError.nameError := by
  with_unfolding_all decide

/-- The `url` value of lines 113–114: the `href` of the link element when
it exists and carries one, and the literal `N/A` otherwise. -/
def itemUrl (it : ItemRow) : List Char :=
  match it.linkElem with
  | some (some u) => u
  | _ => nA

/-- A result row with a perfectly good title and price but no link element
at all. -/
def titleNoUrlRow : ItemRow :=
  { titleDiv := some "Fast 1TB SSD".toList, titleH3 := none,
    priceSpan := some "$50".toList, linkElem := none }

/-- C8 counterexample: a row that has a title but no URL is discarded by
`parse_search_page` — the claim that only rows missing both are discarded,
and that such a row still yields a RawListing, is false. -/
theorem C8_counterexample :
    itemTitle titleNoUrlRow ≠ nA ∧
    parse_search_page { rows := some [titleNoUrlRow] } = [] := by
  with_unfolding_all decide

/-- C8 (amended): a row yields no RawListing exactly when its link element
exists without an href (the swallowed `KeyError`), or its derived URL is
the fallback `N/A` (no link element — or a literal href `N/A`), or its
derived title is the fallback `N/A` (no title element in either container —
or literal text `N/A`).  In particular a row missing either one of title
and URL is already discarded, silently; rows missing both are a special
case of this. -/
theorem C8_row_discarded_iff (it : ItemRow) :
    parseItem it = none ↔
      (it.linkElem = some none ∨ itemUrl it = nA ∨ itemTitle it = nA) := by
  unfold parseItem itemUrl
  cases hlk : it.linkElem with
  | none => simp
  | some o =>
    cases o with
    | none => simp
    | some u =>
      simp only []
      by_cases hu : u = nA ∨ itemTitle it = nA
      · rw [if_pos hu]
        exact ⟨fun _ => Or.inr hu, fun _ => rfl⟩
      · rw [if_neg hu]
        constructor
        · intro hcontra
          split at hcontra <;> exact Option.noConfusion hcontra
        · intro hor
          rcases hor with h1 | h2 | h3
          · rw [Option.some.injEq] at h1
            exact Option.noConfusion h1
          · exact absurd (Or.inl h2) hu
          · exact absurd (Or.inr h3) hu

/-- An ordinary single-price raw listing, fresh from the classifier. -/
def plainSingleListing : RawListing :=
  { title := "1TB".toList, url := ['u'], price_str := some "$50".toList,
    is_multi_variation := false }

/-- C9 counterexample: running the single-price pipeline step on a raw
listing does not leave the record unchanged — `calculate_price_per_tb`
writes the three analysis keys into its argument dict (lines 199–201), so
the post-state of the record differs from the original. -/
theorem C9_counterexample :
    (calculate_price_per_tb plainSingleListing).2 ≠ plainSingleListing := by
  intro h
  have h1 : (calculate_price_per_tb plainSingleListing).2.price_usd = some 50 := by
    with_unfolding_all decide
  rw [h] at h1
  exact Option.noConfusion h1

/-- C9 (amended): `calculate_price_per_tb` mutates its argument record —
the returned AnalyzedListing is the same dict, augmented in place with
`price_usd`, `capacity_tb` and `price_per_tb` — but it never alters the
fields the classifier produced: title, url, price text and the
classification flag survive unchanged on every path.  (The ranking step,
`sorted`, builds a new list; in this pure embedding `sortedByUnitPrice` is
a function of its input, which is shared, not altered.) -/
theorem C9_classifier_fields_never_mutated (l : RawListing) :
    (calculate_price_per_tb l).2.title = l.title ∧
    (calculate_price_per_tb l).2.url = l.url ∧
    (calculate_price_per_tb l).2.price_str = l.price_str ∧
    (calculate_price_per_tb l).2.is_multi_variation = l.is_multi_variation := by
  unfold calculate_price_per_tb
  cases extract_best_capacity l.title with
  | none => exact ⟨rfl, rfl, rfl, rfl⟩
  | some c =>
    simp only []
    by_cases h : c = 0 ∨ c ≤ 0
    · rw [if_pos h]
      exact ⟨rfl, rfl, rfl, rfl⟩
    · rw [if_neg h]
      cases priceSearch (l.price_str.getD []) with
      | none => exact ⟨rfl, rfl, rfl, rfl⟩
      | some g => exact ⟨rfl, rfl, rfl, rfl⟩

/-- C10: for every row that yields a RawListing, the multi-variant flag is
exactly the containment of the two-letter substring `to` anywhere in the
lowercased display price text — no check that two amounts are present
exists — and a multi-variant raw listing carries no price text at all
(its display price is never parsed). -/
theorem C10_range_detection_is_substring_to (it : ItemRow) (rl : RawListing)
    (h : parseItem it = some rl) :
    rl.is_multi_variation = pyContains ['t', 'o'] ((itemPriceStr it).map pyLower) ∧
    (rl.is_multi_variation = true → rl.price_str = none) := by
  unfold parseItem at h
  cases hlk : it.linkElem with
  | none =>
    rw [hlk] at h
    simp at h
  | some o =>
    cases o with
    | none =>
      rw [hlk] at h
      exact Option.noConfusion h
    | some u =>
      rw [hlk] at h
      simp only [] at h
      by_cases hu : u = nA ∨ itemTitle it = nA
      · rw [if_pos hu] at h
        exact Option.noConfusion h
      · rw [if_neg hu] at h
        by_cases hto : pyContains ['t', 'o'] ((itemPriceStr it).map pyLower) = true
        · rw [if_pos hto] at h
          cases h
          exact ⟨hto.symm ▸ rfl, fun _ => rfl⟩
        · rw [if_neg hto] at h
          cases h
          constructor
          · simp only []
            exact (Bool.not_eq_true _).mp hto |>.symm ▸ rfl
          · intro hcontra
            exact absurd hcontra (by simp)

/-- A row whose price text contains `to` only inside the word `Total`. -/
def wordToRow : ItemRow :=
  { titleDiv := some "1TB".toList, titleH3 := none,
    priceSpan := some "$9 Total".toList, linkElem := some (some ['u']) }

/-- The raw listing the classifier produces for that row. -/
def wordToRawListing : RawListing :=
  { title := "1TB".toList, url := ['u'], price_str := none,
    is_multi_variation := true }

/-- Witness for C10: the `Total` row is routed to the multi-variant path
even though its price text is a single amount. -/
theorem C10_range_detection_is_substring_to_witness :
    parseItem wordToRow = some wordToRawListing ∧
    (wordToRawListing.is_multi_variation =
        pyContains ['t', 'o'] ((itemPriceStr wordToRow).map pyLower) ∧
      (wordToRawListing.is_multi_variation = true → wordToRawListing.price_str = none)) :=
  ⟨by with_unfolding_all decide,
   C10_range_detection_is_substring_to wordToRow wordToRawListing
     (by with_unfolding_all decide)⟩

/-- C2 (amended): only a search-page fetch failure is fatal — the next loop
iteration ends the run in StoppedFailure with the state untouched, so no
further fetch is issued — whereas a failed detail-page fetch merely skips
that one listing: the per-listing step returns the accumulator unchanged
(`if product_html:` has no else branch) and the crawl continues. -/
theorem C2_transport_failure (w : World) (cfg : Config) (st : SState) (fuel : Nat)
    (hcond : (st.valid_listings.length : Int) < cfg.desired_results)
    (hfail : w.searchPage st.page_number = none) :
    runLoop w cfg (fuel + 1) st = (Outcome.stoppedFailure, st) ∧
    (∀ (acc : List Analyzed) (l : RawListing), l.is_multi_variation = true →
      w.detailPage l.url = none → processListing w acc l = Except.ok acc) := by
  constructor
  · show (match searchStep w cfg st with
      | StepResult.stop o st2 => (o, st2)
      | StepResult.next st2 => runLoop w cfg fuel st2) = (Outcome.stoppedFailure, st)
    unfold searchStep
    rw [if_pos hcond, hfail]
  · intro acc l hm hd
    unfold processListing
    rw [hm, hd]
    simp

/-- A multi-variant row (price text is a range) whose detail link is `d`. -/
def rangeRow : ItemRow :=
  { titleDiv := some "1TB kit".toList, titleH3 := none,
    priceSpan := some "$5 to $9".toList, linkElem := some (some ['d']) }

/-- A source where page 1 holds only the multi-variant row, page 2 holds a
good single-price listing, and every detail-page fetch fails. -/
def detailFailWorld : World :=
  { searchPage := fun p => if p = 1 then some { rows := some [rangeRow] }
      else some { rows := some [singlePriceRow] }
    detailPage := fun _ => none }

/-- C2 counterexample: on page 1 the sole listing's detail fetch fails — a
transport failure — yet the run does not end in StoppedFailure: it goes on
to fetch page 2, analyzes its listing and stops successfully, so a failed
detail fetch is skipped rather than fatal. -/
theorem C2_counterexample :
    detailFailWorld.detailPage ['d'] = none ∧
    (runMain detailFailWorld witnessConfig 3).1 = Outcome.stoppedSuccess ∧
    (runMain detailFailWorld witnessConfig 3).2.page_number = 2 := by
  with_unfolding_all decide

/-- A source whose every search-page fetch fails. -/
def fetchFailWorld : World :=
  { searchPage := fun _ => none
    detailPage := fun _ => none }

/-- Witness for C2 at the failing source: one iteration from the initial
state ends the run in StoppedFailure. -/
theorem C2_transport_failure_witness :
    ((initState.valid_listings.length : Int) < witnessConfig.desired_results ∧
     fetchFailWorld.searchPage initState.page_number = none) ∧
    runLoop fetchFailWorld witnessConfig 1 initState =
      (Outcome.stoppedFailure, initState) :=
  ⟨⟨by with_unfolding_all decide, rfl⟩,
   (C2_transport_failure fetchFailWorld witnessConfig initState 0
     (by with_unfolding_all decide) rfl).1⟩

/-- C6: with the hard-coded empty-page limit of 5 (line 270), an iteration
whose fetched page classifies to zero raw listings increments the counter
and stops the run in StoppedExhausted exactly when the incremented counter
reaches 5 — four consecutive empty pages only advance the page number —
while an iteration whose page yields at least one raw listing (parseable or
not: nothing below depends on any listing being analyzable) always leaves
the loop with the counter reset to 0. -/
theorem C6_empty_page_counter (w : World) (cfg : Config) (st : SState) (html : SearchHtml)
    (hcond : (st.valid_listings.length : Int) < cfg.desired_results)
    (hfetch : w.searchPage st.page_number = some html) :
    (parse_search_page html = [] →
      (st.consecutive_empty_pages + 1 ≥ 5 →
        searchStep w cfg st = StepResult.stop Outcome.stoppedExhausted
          { st with consecutive_empty_pages := st.consecutive_empty_pages + 1 }) ∧
      (st.consecutive_empty_pages + 1 < 5 →
        searchStep w cfg st = StepResult.next
          { st with
            consecutive_empty_pages := st.consecutive_empty_pages + 1
            page_number := st.page_number + 1 })) ∧
    (parse_search_page html ≠ [] →
      (∀ o st2, searchStep w cfg st = StepResult.stop o st2 →
        st2.consecutive_empty_pages = 0) ∧
      (∀ st2, searchStep w cfg st = StepResult.next st2 →
        st2.consecutive_empty_pages = 0 ∧ st2.page_number = st.page_number + 1)) := by
  unfold searchStep
  rw [if_pos hcond, hfetch]
  simp only []
  constructor
  · intro hempty
    rw [if_pos hempty]
    unfold EMPTY_PAGE_LIMIT
    constructor
    · intro h5
      rw [if_pos h5]
    · intro h5
      rw [if_neg (by omega)]
  · intro hempty
    rw [if_neg hempty]
    cases hpa : processAll w st.all_analyzed_listings (parse_search_page html) with
    | mk e acc =>
      cases e with
      | some err =>
        simp only []
        constructor
        · intro o st2 hstep
          cases hstep
          rfl
        · intro st2 hstep
          exact StepResult.noConfusion hstep
      | none =>
        simp only []
        by_cases hdes : ((validFilter cfg acc).length : Int) ≥ cfg.desired_results
        · rw [if_pos hdes]
          constructor
          · intro o st2 hstep
            cases hstep
            rfl
          · intro st2 hstep
            exact StepResult.noConfusion hstep
        · rw [if_neg hdes]
          constructor
          · intro o st2 hstep
            exact StepResult.noConfusion hstep
          · intro st2 hstep
            cases hstep
            exact ⟨rfl, rfl⟩

/-- A source whose every page fetch succeeds but carries no result
container at all. -/
def emptyPagesWorld : World :=
  { searchPage := fun _ => some { rows := none }
    detailPage := fun _ => none }

/-- The loop state after four consecutive empty pages. -/
def fourEmptyState : SState :=
  { all_analyzed_listings := [], valid_listings := [], page_number := 5,
    consecutive_empty_pages := 4 }

/-- Witness for C6: the fifth consecutive empty page stops the run in
StoppedExhausted. -/
theorem C6_empty_page_counter_witness :
    ((fourEmptyState.valid_listings.length : Int) < witnessConfig.desired_results ∧
     parse_search_page { rows := none } = [] ∧
     fourEmptyState.consecutive_empty_pages + 1 ≥ 5) ∧
    searchStep emptyPagesWorld witnessConfig fourEmptyState =
      StepResult.stop Outcome.stoppedExhausted
        { fourEmptyState with consecutive_empty_pages := 5 } :=
  ⟨⟨by with_unfolding_all decide, rfl, by with_unfolding_all decide⟩,
   ((C6_empty_page_counter emptyPagesWorld witnessConfig fourEmptyState { rows := none }
      (by with_unfolding_all decide) rfl).1 rfl).1 (by with_unfolding_all decide)⟩

/-- The record invariant of the data model: positive capacity, non-negative
price, and a unit price that is exactly the quotient. -/
def AnalyzedInv (a : Analyzed) : Prop :=
  0 < a.capacity_tb ∧ 0 ≤ a.price_usd ∧ a.price_per_tb = a.price_usd / a.capacity_tb

theorem pyFloatOfCap_nonneg (g : List Char) : 0 ≤ pyFloatOfCap g := by
  unfold pyFloatOfCap
  positivity

/-- Every record produced by the single-price path satisfies the invariant
(with a merely non-negative price: the regex admits a zero amount). -/
theorem calculate_price_per_tb_inv {l r : RawListing}
    (h : (calculate_price_per_tb l).1 = some r) : AnalyzedInv (toAnalyzed r) := by
  unfold calculate_price_per_tb at h
  cases hc : extract_best_capacity l.title with
  | none => rw [hc] at h; exact Option.noConfusion h
  | some c =>
    rw [hc] at h
    simp only [] at h
    by_cases h0 : c = 0 ∨ c ≤ 0
    · rw [if_pos h0] at h; exact Option.noConfusion h
    · rw [if_neg h0] at h
      cases hp : priceSearch (l.price_str.getD []) with
      | none => rw [hp] at h; exact Option.noConfusion h
      | some g =>
        rw [hp] at h
        simp only [] at h
        cases h
        push_neg at h0
        refine ⟨?_, ?_, ?_⟩
        · simpa [toAnalyzed] using h0.2
        · simpa [toAnalyzed] using pyFloatOfCap_nonneg _
        · simp [toAnalyzed]

/-- The per-variant step never yields a record: every surviving variant
dies on line 169's NameError first. -/
theorem processVariant_ok {b : List Char} {d : VariantDetails} {o : Option Analyzed}
    (h : processVariant b d = Except.ok o) : o = none := by
  unfold processVariant at h
  split at h
  · cases h; rfl
  · split at h
    · cases h; rfl
    · simp only [] at h
      split at h
      · cases h; rfl
      · split at h
        · cases h; rfl
        · split at h
          · cases h; rfl
          · split at h
            · cases h; rfl
            · exact Except.noConfusion h

/-- Hence a menu whose processing completes normally produced nothing. -/
theorem processMenu_ok {b : List Char} : ∀ {entries : List VariantDetails}
    {l : List Analyzed}, processMenu b entries = Except.ok l → l = [] := by
  intro entries
  induction entries with
  | nil => intro l h; cases h; rfl
  | cons d rest ih =>
    intro l h
    unfold processMenu at h
    cases hv : processVariant b d with
    | error e => rw [hv] at h; exact Except.noConfusion h
    | ok o =>
      have ho := processVariant_ok hv
      subst ho
      rw [hv] at h
      exact ih h

/-- A normal return of the variation parser is always the empty list. -/
theorem parse_variations_ok {html : DetailHtml} {b : List Char} {l : List Analyzed}
    (h : parse_variations_from_product_page html b = Except.ok l) : l = [] := by
  unfold parse_variations_from_product_page at h
  split at h
  · cases h; rfl
  · split at h
    · cases h; rfl
    · exact processMenu_ok h

theorem processListing_inv {w : World} {acc : List Analyzed} {l : RawListing}
    {acc2 : List Analyzed} (h : processListing w acc l = Except.ok acc2)
    (hacc : ∀ a ∈ acc, AnalyzedInv a) : ∀ a ∈ acc2, AnalyzedInv a := by
  unfold processListing at h
  by_cases hm : l.is_multi_variation
  · rw [if_pos hm] at h
    cases hd : w.detailPage l.url with
    | none => rw [hd] at h; cases h; exact hacc
    | some ph =>
      rw [hd] at h
      simp only [] at h
      cases hv : parse_variations_from_product_page ph l.title with
      | error e => rw [hv] at h; exact Except.noConfusion h
      | ok vars =>
        rw [hv] at h
        simp only [] at h
        cases h
        have hve := parse_variations_ok hv
        subst hve
        simpa using hacc
  · rw [if_neg hm] at h
    cases hc : (calculate_price_per_tb l).1 with
    | none => rw [hc] at h; cases h; exact hacc
    | some r =>
      rw [hc] at h
      simp only [] at h
      cases h
      intro a ha
      rw [List.mem_append] at ha
      rcases ha with ha | ha
      · exact hacc a ha
      · rw [List.mem_singleton] at ha
        subst ha
        exact calculate_price_per_tb_inv hc

theorem processAll_inv {w : World} : ∀ {ls : List RawListing} {acc : List Analyzed},
    (∀ a ∈ acc, AnalyzedInv a) → ∀ a ∈ (processAll w acc ls).2, AnalyzedInv a := by
  intro ls
  induction ls with
  | nil => intro acc hacc; exact hacc
  | cons l rest ih =>
    intro acc hacc
    unfold processAll
    cases hp : processListing w acc l with
    | error e => exact hacc
    | ok acc2 => exact ih (processListing_inv hp hacc)

theorem searchStep_inv {w : World} {cfg : Config} {st : SState}
    (hst : ∀ a ∈ st.all_analyzed_listings, AnalyzedInv a) :
    (∀ o st2, searchStep w cfg st = StepResult.stop o st2 →
       ∀ a ∈ st2.all_analyzed_listings, AnalyzedInv a) ∧
    (∀ st2, searchStep w cfg st = StepResult.next st2 →
       ∀ a ∈ st2.all_analyzed_listings, AnalyzedInv a) := by
  unfold searchStep
  by_cases hcond : (st.valid_listings.length : Int) < cfg.desired_results
  · rw [if_pos hcond]
    cases hf : w.searchPage st.page_number with
    | none =>
      exact ⟨fun o st2 hs => by cases hs; exact hst,
             fun st2 hs => StepResult.noConfusion hs⟩
    | some html =>
      simp only []
      by_cases he : parse_search_page html = []
      · rw [if_pos he]
        by_cases h5 : st.consecutive_empty_pages + 1 ≥ EMPTY_PAGE_LIMIT
        · rw [if_pos h5]
          exact ⟨fun o st2 hs => by cases hs; exact hst,
                 fun st2 hs => StepResult.noConfusion hs⟩
        · rw [if_neg h5]
          exact ⟨fun o st2 hs => StepResult.noConfusion hs,
                 fun st2 hs => by cases hs; exact hst⟩
      · rw [if_neg he]
        cases hpa : processAll w st.all_analyzed_listings (parse_search_page html) with
        | mk e acc =>
          have haccinv : ∀ a ∈ acc, AnalyzedInv a := by
            have h2 := @processAll_inv w (parse_search_page html)
              st.all_analyzed_listings hst
            rw [hpa] at h2
            exact h2
          cases e with
          | some err =>
            simp only []
            exact ⟨fun o st2 hs => by cases hs; exact haccinv,
                   fun st2 hs => StepResult.noConfusion hs⟩
          | none =>
            simp only []
            by_cases hdes : ((validFilter cfg acc).length : Int) ≥ cfg.desired_results
            · rw [if_pos hdes]
              exact ⟨fun o st2 hs => by cases hs; exact haccinv,
                     fun st2 hs => StepResult.noConfusion hs⟩
            · rw [if_neg hdes]
              exact ⟨fun o st2 hs => StepResult.noConfusion hs,
                     fun st2 hs => by cases hs; exact haccinv⟩
  · rw [if_neg hcond]
    exact ⟨fun o st2 hs => by cases hs; exact hst,
           fun st2 hs => StepResult.noConfusion hs⟩

theorem runLoop_inv {w : World} {cfg : Config} : ∀ (fuel : Nat) (st : SState),
    (∀ a ∈ st.all_analyzed_listings, AnalyzedInv a) →
    ∀ a ∈ (runLoop w cfg fuel st).2.all_analyzed_listings, AnalyzedInv a := by
  intro fuel
  induction fuel with
  | zero => intro st hst; exact hst
  | succ n ih =>
    intro st hst
    unfold runLoop
    cases hs : searchStep w cfg st with
    | stop o st2 => exact (searchStep_inv hst).1 o st2 hs
    | next st2 => exact ih st2 ((searchStep_inv hst).2 st2 hs)

/-- C3 (amended): every record ever accumulated by a run — by the
single-price path or the variation path — has positive capacity,
NON-NEGATIVE price, and a unit price that is exactly price divided by
capacity; and a single-price listing for which a positive capacity and a
price-shaped substring cannot both be derived produces no record.  (The
original claim's strict price positivity fails: the price regex admits
`$0.00`, see the counterexample; the variation path appends nothing at all,
because its well-formed variants die on line 169's NameError.) -/
theorem C3_accumulated_invariant :
    (∀ (w : World) (cfg : Config) (fuel : Nat),
      ∀ a ∈ (runMain w cfg fuel).2.all_analyzed_listings,
        0 < a.capacity_tb ∧ 0 ≤ a.price_usd ∧
          a.price_per_tb = a.price_usd / a.capacity_tb) ∧
    (∀ l : RawListing,
      ((∀ c, extract_best_capacity l.title = some c → c ≤ 0) ∨
        priceSearch (l.price_str.getD []) = none) →
      (calculate_price_per_tb l).1 = none) := by
  constructor
  · intro w cfg fuel
    exact runLoop_inv fuel initState (by intro a ha; cases ha)
  · intro l hl
    unfold calculate_price_per_tb
    cases hc : extract_best_capacity l.title with
    | none => rfl
    | some c =>
      simp only []
      rcases hl with hcap | hpr
      · rw [if_pos (Or.inr (hcap c hc))]
      · by_cases h0 : c = 0 ∨ c ≤ 0
        · rw [if_pos h0]
        · rw [if_neg h0, hpr]

/-- A row whose display price is the zero amount `$0.00`. -/
def zeroPriceRow : ItemRow :=
  { titleDiv := some "1TB".toList, titleH3 := none,
    priceSpan := some "$0.00".toList, linkElem := some (some ['z']) }

def zeroPriceWorld : World :=
  { searchPage := fun p => if p = 1 then some { rows := some [zeroPriceRow] } else none
    detailPage := fun _ => none }

/-- C3 counterexample: the `1TB` listing priced `$0.00` becomes an
accumulated record with priceUSD = 0, so the claimed strict positivity of
the price is false. -/
theorem C3_counterexample :
    ¬ (∀ a ∈ (runMain zeroPriceWorld witnessConfig 2).2.all_analyzed_listings,
        0 < a.capacity_tb ∧ 0 < a.price_usd ∧
          a.price_per_tb = a.price_usd / a.capacity_tb) := by
  with_unfolding_all decide

/-- A well-formed tiny single-price listing world. -/
def smallSingleRow : ItemRow :=
  { titleDiv := some "1TB".toList, titleH3 := none,
    priceSpan := some "$50".toList, linkElem := some (some ['s']) }

def smallSingleWorld : World :=
  { searchPage := fun p => if p = 1 then some { rows := some [smallSingleRow] } else none
    detailPage := fun _ => none }

/-- The record that run accumulates. -/
def smallAnalyzed : Analyzed :=
  { title := "1TB".toList, price_usd := 50, capacity_tb := 1, price_per_tb := 50,
    url := ['s'] }

/-- Witness for C3 at the tiny run above. -/
theorem C3_accumulated_invariant_witness :
    smallAnalyzed ∈ (runMain smallSingleWorld witnessConfig 2).2.all_analyzed_listings ∧
    (0 < smallAnalyzed.capacity_tb ∧ 0 ≤ smallAnalyzed.price_usd ∧
      smallAnalyzed.price_per_tb = smallAnalyzed.price_usd / smallAnalyzed.capacity_tb) :=
  ⟨by with_unfolding_all decide,
   C3_accumulated_invariant.1 smallSingleWorld witnessConfig 2 smallAnalyzed
     (by with_unfolding_all decide)⟩
